import Mathlib

/-!
# LensKey Vault — verification of the cryptographic core

Shallow embedding of `src/lib/crypto.ts`, `src/lib/auth.ts` and
`src/lib/db.ts` (the `importData`/`exportData` layer).

The WebCrypto primitives (PBKDF2 key derivation and AES-256-GCM) are
platform collaborators, not repository code; they are modelled as an
ideal symbolic cipher: a derived key is the pair (password, salt), a
GCM ciphertext is an opaque value remembering the (key, iv, plaintext)
that produced it, and authenticated decryption succeeds exactly when it
is handed the same key and iv that produced the ciphertext.  Byte
arrays are `List Nat`.  Strings stored in `localStorage` are modelled
by the symbolic sum `SVal` (a plain string is never valid envelope
JSON at this level of abstraction).
-/

namespace LensKey

/-- Symbolic PBKDF2-derived key: `getDerivedKey` in crypto.ts is
deterministic in (password, salt); the ideal model keeps the pair. -/
structure DerivedKey where
  password : String
  salt : List Nat
deriving DecidableEq, Repr

/-- Symbolic AES-GCM ciphertext: remembers the key, iv and plaintext
that produced it (ideal-cipher abstraction of `subtle.encrypt`). -/
structure GCMCiphertext where
  key : DerivedKey
  iv : List Nat
  data : String
deriving DecidableEq, Repr

/-- Model of `getDerivedKey(password, salt)` from crypto.ts (PBKDF2,
100000 iterations of HMAC-SHA-256), symbolically. -/
def getDerivedKey (password : String) (salt : List Nat) : DerivedKey :=
  ⟨password, salt⟩

/-- Model of the platform call `window.crypto.subtle.encrypt` with
algorithm AES-GCM, the given iv and key, over `data`. -/
def subtleEncrypt (key : DerivedKey) (iv : List Nat) (data : String) : GCMCiphertext :=
  ⟨key, iv, data⟩

/-- Decoded bytes sitting in the `ciphertext` field of an envelope:
either a genuine GCM ciphertext or arbitrary raw bytes (which can
never pass the GCM integrity check). -/
inductive Bytes where
  | raw (bs : List Nat)
  | ct (c : GCMCiphertext)
deriving DecidableEq, Repr

/-- Model of the platform call `window.crypto.subtle.decrypt` with
algorithm AES-GCM: succeeds exactly when `ct` was produced under the
same key and iv; any mismatch is an authentication-tag failure
(`none`). -/
def subtleDecrypt (key : DerivedKey) (iv : List Nat) : Bytes → Option String
  | .ct c => if c.key = key ∧ c.iv = iv then some c.data else none
  | .raw _ => none

/-- The decoded three-field envelope (`EncryptedPayload` in crypto.ts)
after `JSON.parse` and `atob` of each field have succeeded. -/
structure EncryptedPayload where
  ciphertext : Bytes
  iv : List Nat
  salt : List Nat
deriving DecidableEq, Repr

/-- The JSON string handed to `decryptData`, as `JSON.parse`/`atob`
classify it:
* `malformed s` — `JSON.parse(s)` throws a `SyntaxError`;
* `badField s` — it parses, but some of the three fields is missing
  or not valid base64, so `atob` throws an `InvalidCharacterError`;
* `wellFormed p` — all three fields decode. -/
inductive EncJson where
  | malformed (s : String)
  | badField (s : String)
  | wellFormed (p : EncryptedPayload)
deriving DecidableEq, Repr

/-- Observable failure classes of `decryptData`.  In crypto.ts only
`subtle.decrypt` sits inside the `try { } catch { }`; `JSON.parse` and
`atob` run before it, so their exceptions propagate unconverted. -/
inductive DecErr where
  | parseError
  | invalidCharacter
  | decryptionFailed
deriving DecidableEq, Repr

/-- Model of `encryptData(text, password)` from crypto.ts, with the fresh
random salt (16 bytes) and iv (12 bytes) passed explicitly as the
random tape of the call. -/
def encryptPayload (text password : String) (salt iv : List Nat) : EncryptedPayload :=
  { ciphertext := .ct (subtleEncrypt (getDerivedKey password salt) iv text)
    iv := iv
    salt := salt }

/-- In crypto.ts, `encryptData` returns `JSON.stringify` of the payload; in the
model, the serialized string is identified with its parse. -/
def encryptData (text password : String) (salt iv : List Nat) : EncJson :=
  .wellFormed (encryptPayload text password salt iv)

/-- Model of `decryptData(encryptedJson, password)` from crypto.ts.  The
`JSON.parse` and the three `atob` calls run before the `try` block, so
their errors are not converted into the generic failure; only a
`subtle.decrypt` rejection becomes
the generic error `Decryption failed. Incorrect password?`. -/
def decryptData (encryptedJson : EncJson) (password : String) : Except DecErr String :=
  match encryptedJson with
  | .malformed _ => .error .parseError
  | .badField _ => .error .invalidCharacter
  | .wellFormed p =>
    let key := getDerivedKey password p.salt
    match subtleDecrypt key p.iv p.ciphertext with
    | some s => .ok s
    | none => .error .decryptionFailed

/-!
## Biometric layer (`src/lib/auth.ts`)

`localStorage` is a map from string keys to strings.  Stored strings
are partitioned symbolically: a plaintext password or flag (`str`),
the JSON output of `encryptData` (`env`), or the base64 of the raw
id of a credential (`bytes`).  A plain string is never valid
envelope JSON in this model.
-/

/-- A value held in `localStorage`. -/
inductive SVal where
  | str (s : String)
  | env (p : EncryptedPayload)
  | bytes (bs : List Nat)
deriving DecidableEq, Repr

/-- Reading a stored string back as envelope JSON: a stored
`encryptData` output parses to its payload; a plain string or a
credential id is not parseable envelope JSON. -/
def SVal.toEncJson : SVal → EncJson
  | .str s => .malformed s
  | .env p => .wellFormed p
  | .bytes _ => .malformed ""

/-- The stored string itself, as the legacy code path reads it.  Only
the `str` case is reachable under the storage discipline; the model
does not track the concrete serialization of the other cases. -/
def SVal.asString : SVal → String
  | .str s => s
  | .env _ => ""
  | .bytes _ => ""

/-- JavaScript truthiness of the stored string: the empty string is
falsy, every other stored string (an envelope JSON, a non-empty
password or flag, a non-empty base64 id) is truthy. -/
def SVal.truthy : SVal → Bool
  | .str s => s ≠ ""
  | .env _ => true
  | .bytes bs => bs ≠ []

/-- Model of `localStorage`, keyed by string. -/
def Store : Type := String → Option SVal

/-- Models `localStorage.setItem`. -/
def setItem (st : Store) (k : String) (v : SVal) : Store :=
  fun q => if q = k then some v else st q

/-- Models `localStorage.removeItem`. -/
def removeItem (st : Store) (k : String) : Store :=
  fun q => if q = k then none else st q

/-- The empty storage. -/
def emptyStore : Store := fun _ => none

/-- The constant `LEGACY_AUTH_ITEM_ID` in auth.ts. -/
def LEGACY_AUTH_ITEM_ID : String := "master-biometric-credential"

/-- JavaScript truthiness of an optional string argument: `undefined`
and the empty string are both falsy. -/
def truthyStr (o : Option String) : Option String :=
  match o with
  | some s => if s = "" then none else some s
  | none => none

/-- The scope id a key is built from.  The code branches on the
truthiness of `itemId`, so the empty item id is falsy and aliases the
legacy global id. -/
def scopeId (itemId : Option String) : String :=
  match truthyStr itemId with
  | some id => id
  | none => LEGACY_AUTH_ITEM_ID

/-- The password-payload key: `bio_pass_${itemId}` or
`bio_pass_master-biometric-credential`. -/
def passKey (itemId : Option String) : String :=
  "bio_pass_" ++ scopeId itemId

/-- The mode-flag key: `${storageKey}_secure`. -/
def secureKey (itemId : Option String) : String :=
  passKey itemId ++ "_secure"

/-- The credential-id key: `bio_cred_${itemId}` or the legacy one. -/
def credKey (itemId : Option String) : String :=
  "bio_cred_" ++ scopeId itemId

/-- The display-name key `bio_name_${itemId}`. -/
def nameKey (id : String) : String :=
  "bio_name_" ++ id

/-- One hex digit, lower case (`b.toString(16)` digit). -/
def hexDigit (n : Nat) : Char :=
  if n < 10 then Char.ofNat (48 + n) else Char.ofNat (87 + n)

/-- Models `b.toString(16).padStart(2, 0)` for a byte `b`. -/
def byteToHex (b : Nat) : String :=
  String.mk [hexDigit (b / 16 % 16), hexDigit (b % 16)]

/-- Models the hex encoding of the PRF output bytes performed in
auth.ts before it is used as an encryption password. -/
def hexOfBytes (bs : List Nat) : String :=
  String.join (bs.map byteToHex)

/-- The platform credential returned by `navigator.credentials.create`:
its raw id, and the PRF extension output when the authenticator
honoured the extension (`getClientExtensionResults().prf.results.first`). -/
structure Credential where
  rawId : List Nat
  prf : Option (List Nat)
deriving DecidableEq, Repr

/-- The assertion returned by `navigator.credentials.get`, carrying
the optional PRF extension output. -/
structure Assertion where
  prf : Option (List Nat)
deriving DecidableEq, Repr

/-- Failure classes of the auth.ts operations. -/
inductive AuthErr where
  /-- The error `Biometric registration failed` (`create` returned null). -/
  | registrationFailed
  /-- The error `Biometric verification failed` (`get` returned null). -/
  | verificationFailed
  /-- The error `No password found for this biometric credential`. -/
  | noPasswordFound
  /-- The error `Secure biometric unlock failed: PRF not available`. -/
  | prfUnavailable
  /-- a platform `subtle.encrypt` rejection inside `registerBiometrics`
  (uncaught there, so it propagates). -/
  | encryptError
  /-- an error propagated out of `decryptData` on the secure path. -/
  | dec (e : DecErr)
deriving DecidableEq, Repr

/-- A stored value read back the way the code tests presence: a key
holding a falsy string (the empty string) counts as absent, exactly
as in `localStorage.getItem(k) || …` and `if (!storedValue)`. -/
def getTruthy (st : Store) (k : String) : Option SVal :=
  match st k with
  | some v => if v.truthy then some v else none
  | none => none

/-- The trailing credential-id bookkeeping of `registerBiometrics`:
store `bio_cred_*` (and `bio_name_*` when a truthy display name was
given for a truthy per-item registration); both branches test
JavaScript truthiness, so an empty item id takes the legacy branch
and an empty display name stores no name. -/
def storeCredId (itemId displayName : Option String) (cred : Credential)
    (st : Store) : Except AuthErr Store :=
  match truthyStr itemId with
  | some id =>
    let st2 := setItem st ("bio_cred_" ++ id) (.bytes cred.rawId)
    match truthyStr displayName with
    | some dn => .ok (setItem st2 ("bio_name_" ++ id) (.str dn))
    | none => .ok st2
  | none => .ok (setItem st (credKey none) (.bytes cred.rawId))

/-- Model of `registerBiometrics(password, itemId?, displayName?)` from auth.ts.
The platform interaction (`navigator.credentials.create`) is an input:
`credential = none` models a null result.  `salt`/`iv` are the random
tape of the inner `encryptData` call and `encFail` models a platform
encryption rejection (which auth.ts does not catch here). -/
def registerBiometrics (password : String) (itemId displayName : Option String)
    (credential : Option Credential) (salt iv : List Nat) (encFail : Bool)
    (st : Store) : Except AuthErr Store :=
  match credential with
  | none => .error .registrationFailed
  | some cred =>
    let storageKey := passKey itemId
    match cred.prf with
    | some prfKey =>
      if encFail then .error .encryptError
      else
        let prfKeyHex := hexOfBytes prfKey
        let encryptedPassword := encryptPayload password prfKeyHex salt iv
        let st1 := setItem (setItem st storageKey (.env encryptedPassword))
          (secureKey itemId) (.str "true")
        storeCredId itemId displayName cred st1
    | none =>
      let st1 := removeItem (setItem st storageKey (.str password))
        (secureKey itemId)
      storeCredId itemId displayName cred st1


/-- Models the comparison of `localStorage.getItem(k)` with the
literal string `true`. -/
def isTrueFlag (st : Store) (k : String) : Bool :=
  match st k with
  | some (.str s) => s = "true"
  | _ => false

/-- Model of `verifyBiometrics(itemId?)` from auth.ts.  The platform assertion
(`navigator.credentials.get`) is an input; `salt`/`iv` are the random
tape of the `encryptData` call of the migration, and `encFail` models that
call failing (auth.ts catches and swallows it).  The stored-value
lookup follows the JavaScript falsy semantics of
`getItem(storageKey) || getItem(legacyKey)` followed by
`if (!storedValue)`: a stored empty string counts as absent.  On
success the returned string is paired with the updated storage. -/
def verifyBiometrics (itemId : Option String) (assertion : Option Assertion)
    (salt iv : List Nat) (encFail : Bool) (st : Store) :
    Except AuthErr (SVal × Store) :=
  match assertion with
  | none => .error .verificationFailed
  | some asn =>
    let storageKey := passKey itemId
    let storedValue :=
      match getTruthy st storageKey with
      | some v => some v
      | none => getTruthy st (passKey none)
    match storedValue with
    | none => .error .noPasswordFound
    | some v =>
      let isSecure := isTrueFlag st (secureKey itemId) || isTrueFlag st (secureKey none)
      if isSecure then
        match asn.prf with
        | some prfKey =>
          match decryptData v.toEncJson (hexOfBytes prfKey) with
          | .ok s => .ok (.str s, st)
          | .error e => .error (.dec e)
        | none => .error .prfUnavailable
      else
        match asn.prf with
        | some prfKey =>
          if encFail then .ok (v, st)
          else
            let enc := encryptPayload v.asString (hexOfBytes prfKey) salt iv
            .ok (v, setItem (setItem st storageKey (.env enc))
              (secureKey itemId) (.str "true"))
        | none => .ok (v, st)

/-!
## Backup import (`src/lib/db.ts`)

The Dexie tables are modelled as finite maps keyed by their primary
key (`vault_items` by `id`, `categories` by `name`); `table.put` is an
upsert on that key.  The outer `JSON.parse` of the import file is
modelled like the envelope JSON: either it throws, or it yields the
the `encrypted`/`data` discriminator fields of the parsed object together with
its `vault_items`/`categories` fields.  The `JSON.parse` of a
decrypted inner payload is an explicit codec argument `parseBackup`.
-/

/-- The interface `VaultItem` from db.ts. -/
structure VaultItem where
  id : String
  title : String
  category : String
  encryptedData : String
  createdAt : String
  hasBiometrics : Bool
deriving DecidableEq, Repr

/-- The interface `CategoryItem` from db.ts (version 3 schema, with `order`). -/
structure CategoryItem where
  name : String
  createdAt : String
  order : Int
deriving DecidableEq, Repr

/-- The two Dexie tables, as maps keyed by primary key. -/
structure DB where
  vault_items : String → Option VaultItem
  categories : String → Option CategoryItem

/-- An empty database. -/
def emptyDB : DB := ⟨fun _ => none, fun _ => none⟩

/-- Models `table.put(x)`: insert or replace by primary key. -/
def upsert {α : Type} (key : α → String) (m : String → Option α) (x : α) :
    String → Option α :=
  fun q => if q = key x then some x else m q

/-- The `for … await table.put(…)` loop over a backup list. -/
def upsertAll {α : Type} (key : α → String) (l : List α)
    (m : String → Option α) : String → Option α :=
  l.foldl (upsert key) m

/-- A parsed backup object: the `vault_items` and `categories` fields,
each possibly absent (`!data.vault_items || !data.categories` is the
format check of the code; an empty array is present and passes it). -/
structure RawBackup where
  vault_items : Option (List VaultItem)
  categories : Option (List CategoryItem)
deriving Repr

/-- The import file as the outer `JSON.parse` classifies it: either it
throws, or it yields an object whose `encrypted` truthiness, optional
`data` envelope string and backup fields are recorded. -/
inductive ImportJson where
  | malformed (s : String)
  | parsed (encrypted : Bool) (data : Option EncJson) (backup : RawBackup)

/-- Failure classes of `importData`. -/
inductive ImpErr where
  /-- an uncaught `JSON.parse` error (outer or inner payload). -/
  | jsonError
  /-- The error `PASSWORD_REQUIRED`. -/
  | passwordRequired
  /-- an error propagated out of `decryptData`. -/
  | dec (e : DecErr)
  /-- The error `Invalid backup file format`. -/
  | invalidFormat
deriving DecidableEq, Repr

/-- The tail of `importData`: the format check and the `rw`
transaction whose loops `put` every backup item and category. -/
def importBackup (data : RawBackup) (d : DB) : Except ImpErr (Nat × DB) :=
  match data.vault_items, data.categories with
  | some items, some cats =>
    .ok (items.length,
      { vault_items := upsertAll VaultItem.id items d.vault_items
        categories := upsertAll CategoryItem.name cats d.categories })
  | _, _ => .error .invalidFormat

/-- Model of `importData(jsonString, password?)` from db.ts.  `parseBackup`
models `JSON.parse` of the decrypted inner payload (`none` = throws
or yields a non-object). -/
def importData (jsonString : ImportJson) (password : Option String)
    (parseBackup : String → Option RawBackup) (d : DB) :
    Except ImpErr (Nat × DB) :=
  match jsonString with
  | .malformed _ => .error .jsonError
  | .parsed encrypted dataField backup =>
    match encrypted, dataField with
    | true, some envJson =>
      match password with
      | none => .error .passwordRequired
      | some pw =>
        match decryptData envJson pw with
        | .error e => .error (.dec e)
        | .ok s =>
          match parseBackup s with
          | none => .error .jsonError
          | some rb => importBackup rb d
    | _, _ => importBackup backup d

/-- Projection of a successful register result (used to name the
intermediate stores of a register/verify scenario concretely). -/
def okStore (r : Except AuthErr Store) (d : Store) : Store :=
  match r with
  | .ok s => s
  | .error _ => d

/-- Projection of a successful import result. -/
def okDB (r : Except ImpErr (Nat × DB)) (d : DB) : DB :=
  match r with
  | .ok x => x.2
  | .error _ => d

end LensKey

namespace LensKey

/-- C1: decrypting an envelope with the password that produced it
returns the original plaintext, for every plaintext, password and
random (salt, iv) pair. -/
theorem decrypt_encrypt_roundtrip (t p : String) (salt iv : List Nat) :
    decryptData (encryptData t p salt iv) p = .ok t := by
  simp [decryptData, encryptData, encryptPayload, subtleDecrypt, subtleEncrypt]

/-- C4 counterexample: a malformed (unparseable) input makes
`decryptData` throw the uncaught `JSON.parse` error, not the generic
`DecryptionFailed`, so the failure behaviour does distinguish
malformed input from a wrong password. -/
theorem decrypt_malformed_not_generic :
    decryptData (.malformed "not json") "pw" = .error .parseError ∧
      DecErr.parseError ≠ DecErr.decryptionFailed := by
  constructor
  · rfl
  · decide

/-- C4 (amended): a wrong password on a well-formed envelope fails
with the single generic `DecryptionFailed`, while malformed input
(unparseable JSON, or a missing/non-base64 field) fails before
decryption with a distinct parse/encoding error. -/
theorem decrypt_error_classes (t p q : String) (salt iv : List Nat) (hpq : p ≠ q) :
    decryptData (encryptData t p salt iv) q = .error .decryptionFailed ∧
      (∀ s pw, decryptData (.malformed s) pw = .error .parseError) ∧
      (∀ s pw, decryptData (.badField s) pw = .error .invalidCharacter) := by
  refine ⟨?_, fun s pw => rfl, fun s pw => rfl⟩
  simp [decryptData, encryptData, encryptPayload, subtleDecrypt, subtleEncrypt,
    getDerivedKey, if_neg hpq]

/-- C4 witness: the amended statement at concrete inputs. -/
theorem decrypt_error_classes_witness :
    decryptData (encryptData "t" "a" [1] [2]) "b" = .error .decryptionFailed ∧
      (∀ s pw, decryptData (.malformed s) pw = .error .parseError) ∧
      (∀ s pw, decryptData (.badField s) pw = .error .invalidCharacter) :=
  decrypt_error_classes "t" "a" "b" [1] [2] (by decide)

/-! ### Store and storage-key lemmas -/

theorem setItem_self (st : Store) (k : String) (v : SVal) :
    setItem st k v k = some v := by
  simp [setItem]

theorem setItem_other (st : Store) (k : String) (v : SVal) (q : String)
    (h : q ≠ k) : setItem st k v q = st q := by
  simp [setItem, h]

theorem removeItem_self (st : Store) (k : String) : removeItem st k k = none := by
  simp [removeItem]

theorem removeItem_other (st : Store) (k q : String) (h : q ≠ k) :
    removeItem st k q = st q := by
  simp [removeItem, h]

theorem passStr_ne_credStr (a b : String) :
    "bio_pass_" ++ a ≠ "bio_cred_" ++ b := by
  intro h
  have h2 := congrArg String.data h
  simp [String.data_append] at h2

theorem passStr_ne_nameStr (a b : String) :
    "bio_pass_" ++ a ≠ "bio_name_" ++ b := by
  intro h
  have h2 := congrArg String.data h
  simp [String.data_append] at h2

theorem self_ne_append_secure (s : String) : s ≠ s ++ "_secure" := by
  intro h
  have h2 := congrArg String.length h
  rw [String.length_append] at h2
  have h3 : ("_secure" : String).length = 7 := rfl
  omega

theorem passKey_ne_secureKey (i : Option String) : passKey i ≠ secureKey i :=
  self_ne_append_secure (passKey i)

theorem passKey_ne_credKey (i j : Option String) : passKey i ≠ credKey j :=
  passStr_ne_credStr (scopeId i) (scopeId j)

theorem passKey_ne_nameKey (i : Option String) (b : String) :
    passKey i ≠ nameKey b :=
  passStr_ne_nameStr (scopeId i) b

theorem passKey_ne_credStr (i : Option String) (b : String) :
    passKey i ≠ "bio_cred_" ++ b :=
  passStr_ne_credStr (scopeId i) b

theorem passKey_ne_nameStr (i : Option String) (b : String) :
    passKey i ≠ "bio_name_" ++ b :=
  passStr_ne_nameStr (scopeId i) b

/-- Decrypting a genuine `encryptData` output, with whatever password,
can only ever recover the plaintext it was built from. -/
theorem decrypt_payload_ok (t p : String) (salt iv : List Nat) (q u : String)
    (h : decryptData (.wellFormed (encryptPayload t p salt iv)) q = .ok u) :
    u = t := by
  by_cases hc : p = q
  · subst hc
    simp [decryptData, encryptPayload, subtleDecrypt, subtleEncrypt,
      getDerivedKey] at h
    exact h.symm
  · simp [decryptData, encryptPayload, subtleDecrypt, subtleEncrypt,
      getDerivedKey, hc] at h

/-! ### C3 — Secure record with no PRF output fails hard -/

/-- C3: when the stored record of the scope is Secure (its `_secure`
flag is the string `"true"`) and its payload is present in the sense
the code tests it (a truthy stored string; per the spec a Secure
payload is an envelope JSON, never empty), a verify whose assertion
carries no PRF output fails with `PrfUnavailable`; no value is
returned on any such path. -/
theorem secure_verify_without_prf_fails (sid : Option String) (st : Store)
    (v : SVal) (salt iv : List Nat) (encFail : Bool)
    (hv : getTruthy st (passKey sid) = some v)
    (hs : isTrueFlag st (secureKey sid) = true) :
    verifyBiometrics sid (some ⟨none⟩) salt iv encFail st =
      .error .prfUnavailable := by
  simp [verifyBiometrics, hv, hs]

/-- C3 witness. -/
theorem secure_verify_without_prf_fails_witness :
    verifyBiometrics (some "x") (some ⟨none⟩) [] [] false
      (setItem (setItem emptyStore (passKey (some "x")) (.str "p"))
        (secureKey (some "x")) (.str "true")) = .error .prfUnavailable :=
  secure_verify_without_prf_fails (some "x") _ (.str "p") [] [] false
    (by decide) (by decide)

/-! ### C5 — migration writes only after a successful wrapping -/

/-- C5: on a Legacy scope record with a fresh PRF output, a failing
wrapping leaves the store exactly unchanged and still returns the
legacy password (the migration error is swallowed); a successful
wrapping atomically installs the new `(payload, mode)` pair computed
beforehand.  The record is present in the sense the code tests it: a
truthy (non-empty) stored password. -/
theorem legacy_migration_failure_is_swallowed (sid : Option String)
    (st : Store) (pw : String) (b salt iv : List Nat)
    (hv : getTruthy st (passKey sid) = some (.str pw))
    (h1 : isTrueFlag st (secureKey sid) = false)
    (h2 : isTrueFlag st (secureKey none) = false) :
    verifyBiometrics sid (some ⟨some b⟩) salt iv true st = .ok (.str pw, st) ∧
      verifyBiometrics sid (some ⟨some b⟩) salt iv false st =
        .ok (.str pw,
          setItem (setItem st (passKey sid)
              (.env (encryptPayload pw (hexOfBytes b) salt iv)))
            (secureKey sid) (.str "true")) := by
  constructor <;> simp [verifyBiometrics, hv, h1, h2, SVal.asString]

/-- C5 witness. -/
theorem legacy_migration_failure_is_swallowed_witness :
    verifyBiometrics (some "x") (some ⟨some [9]⟩) [1] [2] true
        (setItem emptyStore (passKey (some "x")) (.str "p")) =
      .ok (.str "p", setItem emptyStore (passKey (some "x")) (.str "p")) :=
  (legacy_migration_failure_is_swallowed (some "x") _ "p" [9] [1] [2]
    (by decide) (by decide) (by decide)).1

/-! ### C6 — migration happens exactly once -/

/-- C6 counterexample: a scope whose stored record is Legacy (plain
payload, no scope flag) is not migrated by a verify with PRF
available when the legacy global record carries a Secure flag: the
flag disjunction sends the call down the Secure branch, which fails on
the plaintext payload instead of migrating it. -/
theorem migration_blocked_by_global_flag :
    verifyBiometrics (some "item-2") (some ⟨some [7]⟩) [1] [2] false
        (setItem (setItem emptyStore (passKey (some "item-2"))
          (.str "p@ss")) (secureKey none) (.str "true")) =
      .error (.dec .parseError) := by
  rfl

/-- C6 (amended): on a Legacy scope record holding a truthy
(non-empty) password, provided neither the scope flag nor the legacy
global flag is Secure, a verify with PRF available rewrites the record
to Secure; every later verify on the migrated store observes Secure
mode, recovers the same password by decryption, and returns the store
unchanged (no further migration write).  An empty stored password is
falsy, counts as no payload, and is never migrated. -/
theorem migration_idempotent (sid : Option String) (st : Store) (pw : String)
    (b salt iv : List Nat)
    (hv : getTruthy st (passKey sid) = some (.str pw))
    (h1 : isTrueFlag st (secureKey sid) = false)
    (h2 : isTrueFlag st (secureKey none) = false) :
    verifyBiometrics sid (some ⟨some b⟩) salt iv false st =
        .ok (.str pw,
          setItem (setItem st (passKey sid)
              (.env (encryptPayload pw (hexOfBytes b) salt iv)))
            (secureKey sid) (.str "true")) ∧
      (setItem (setItem st (passKey sid)
          (.env (encryptPayload pw (hexOfBytes b) salt iv)))
        (secureKey sid) (.str "true")) (secureKey sid) = some (.str "true") ∧
      ∀ salt2 iv2 encFail2,
        verifyBiometrics sid (some ⟨some b⟩) salt2 iv2 encFail2
            (setItem (setItem st (passKey sid)
                (.env (encryptPayload pw (hexOfBytes b) salt iv)))
              (secureKey sid) (.str "true")) =
          .ok (.str pw,
            setItem (setItem st (passKey sid)
                (.env (encryptPayload pw (hexOfBytes b) salt iv)))
              (secureKey sid) (.str "true")) := by
  refine ⟨?_, setItem_self _ _ _, ?_⟩
  · simp [verifyBiometrics, hv, h1, h2, SVal.asString]
  · intro salt2 iv2 encFail2
    have hrow : (setItem (setItem st (passKey sid)
        (.env (encryptPayload pw (hexOfBytes b) salt iv)))
        (secureKey sid) (.str "true")) (passKey sid) =
        some (.env (encryptPayload pw (hexOfBytes b) salt iv)) := by
      rw [setItem_other _ _ _ _ (passKey_ne_secureKey sid), setItem_self]
    have hp : getTruthy (setItem (setItem st (passKey sid)
        (.env (encryptPayload pw (hexOfBytes b) salt iv)))
        (secureKey sid) (.str "true")) (passKey sid) =
        some (.env (encryptPayload pw (hexOfBytes b) salt iv)) := by
      simp [getTruthy, hrow, SVal.truthy]
    have hf : isTrueFlag (setItem (setItem st (passKey sid)
        (.env (encryptPayload pw (hexOfBytes b) salt iv)))
        (secureKey sid) (.str "true")) (secureKey sid) = true := by
      simp [isTrueFlag, setItem_self]
    simp only [verifyBiometrics, hp, hf]
    simp [SVal.toEncJson, decryptData, encryptPayload, subtleDecrypt,
      subtleEncrypt, getDerivedKey]

/-- C6 witness. -/
theorem migration_idempotent_witness :
    verifyBiometrics (some "x") (some ⟨some [9]⟩) [1] [2] false
        (setItem emptyStore (passKey (some "x")) (.str "p")) =
      .ok (.str "p",
        setItem (setItem (setItem emptyStore (passKey (some "x")) (.str "p"))
            (passKey (some "x"))
            (.env (encryptPayload "p" (hexOfBytes [9]) [1] [2])))
          (secureKey (some "x")) (.str "true")) :=
  (migration_idempotent (some "x") _ "p" [9] [1] [2]
    (by decide) (by decide) (by decide)).1

/-! ### C9 — fallback to the legacy global payload -/

/-- C9 counterexample: `NoPasswordForCredential` is not raised only
when both payloads are absent: a stored but empty global payload is
falsy, so the code throws `NoPasswordForCredential` even though the
legacy global key does hold a payload row. -/
theorem stored_empty_payload_not_found :
    verifyBiometrics (some "x") (some ⟨none⟩) [] [] false
        (setItem emptyStore (passKey none) (.str "")) =
      .error .noPasswordFound ∧
      (setItem emptyStore (passKey none) (.str "")) (passKey none) =
        some (.str "") :=
  ⟨rfl, rfl⟩

/-- C9 (amended): when no truthy payload is stored under the
scope-specific key (no row, or a falsy empty string), verify falls
back to the legacy global record
(`bio_pass_master-biometric-credential`): `NoPasswordForCredential` is
raised exactly when neither key holds a truthy payload, and when only
the global one is truthy its value is the one returned (shown on the
plain legacy path). -/
theorem verify_falls_back_to_global (id : String) (a : Assertion)
    (st : Store) (salt iv : List Nat) (encFail : Bool)
    (hnone : getTruthy st (passKey (some id)) = none) :
    (getTruthy st (passKey none) = none →
      verifyBiometrics (some id) (some a) salt iv encFail st =
        .error .noPasswordFound) ∧
    (∀ v, getTruthy st (passKey none) = some v →
      verifyBiometrics (some id) (some a) salt iv encFail st ≠
        .error .noPasswordFound) ∧
    (∀ pw, getTruthy st (passKey none) = some (.str pw) →
      isTrueFlag st (secureKey (some id)) = false →
      isTrueFlag st (secureKey none) = false →
      a.prf = none →
      verifyBiometrics (some id) (some a) salt iv encFail st =
        .ok (.str pw, st)) := by
  refine ⟨?_, ?_, ?_⟩
  · intro hm
    simp [verifyBiometrics, hnone, hm]
  · intro v hm
    cases hprf : a.prf with
    | none =>
      cases hsec : isTrueFlag st (secureKey (some id)) ||
          isTrueFlag st (secureKey none) <;>
        simp [verifyBiometrics, hnone, hm, hprf, hsec]
    | some pk =>
      cases hsec : isTrueFlag st (secureKey (some id)) ||
          isTrueFlag st (secureKey none)
      · cases encFail <;> simp [verifyBiometrics, hnone, hm, hprf, hsec]
      · cases hdec : decryptData v.toEncJson (hexOfBytes pk) <;>
          simp [verifyBiometrics, hnone, hm, hprf, hsec, hdec]
  · intro pw hm h1 h2 hprf
    simp [verifyBiometrics, hnone, hm, h1, h2, hprf]

/-- C9 witness. -/
theorem verify_falls_back_to_global_witness :
    verifyBiometrics (some "x") (some ⟨none⟩) [] [] false
        (setItem emptyStore (passKey none) (.str "m")) =
      .ok (.str "m", setItem emptyStore (passKey none) (.str "m")) :=
  (verify_falls_back_to_global "x" ⟨none⟩ _ [] [] false (by decide)).2.2 "m"
    (by decide) (by decide) (by decide) rfl

/-! ### C2 — the mode flag and the payload can come from different
records -/

/-- C2 (code bug): from an empty store, register a Legacy record for
scope `item-A` (platform without PRF) and then a Secure global record
(platform with PRF).  Verifying `item-A` with PRF present now branches
on the Secure flag of the *global* record while interpreting the
Legacy plaintext payload: the call fails with a propagated decryption
parse error instead of returning `pwA`, so the mode consulted and the
payload interpreted do not belong to the same record. -/
theorem mode_payload_from_different_records :
    ((registerBiometrics "pwA" (some "item-A") none
        (some ⟨[1], none⟩) [] [] false emptyStore).bind fun s1 =>
      (registerBiometrics "masterPw" none none
        (some ⟨[2], some [9]⟩) [3] [4] false s1).bind fun s2 =>
      (verifyBiometrics (some "item-A") (some ⟨some [9]⟩) [5] [6] false
        s2).map Prod.fst) = .error (.dec .parseError) := by
  rfl

/-! ### C7 — scope isolation -/

/-- The trailing bookkeeping of a registration never touches a
password-payload key. -/
theorem storeCredId_pass (i d : Option String) (cred : Credential)
    (st st2 : Store) (h : storeCredId i d cred st = .ok st2)
    (A : Option String) : st2 (passKey A) = st (passKey A) := by
  cases hi : truthyStr i with
  | some id =>
    cases hd : truthyStr d with
    | some dn =>
      simp only [storeCredId, hi, hd] at h
      injection h with h
      subst h
      rw [setItem_other _ _ _ _ (passKey_ne_nameStr A id),
        setItem_other _ _ _ _ (passKey_ne_credStr A id)]
    | none =>
      simp only [storeCredId, hi, hd] at h
      injection h with h
      subst h
      rw [setItem_other _ _ _ _ (passKey_ne_credStr A id)]
  | none =>
    simp only [storeCredId, hi] at h
    injection h with h
    subst h
    rw [setItem_other _ _ _ _ (passKey_ne_credKey A none)]

/-- A successful registration leaves, under the payload key of the scope,
either the plain password (Legacy) or an envelope wrapping exactly
that password (Secure). -/
theorem register_pass_self (pw : String) (i d : Option String)
    (c : Option Credential) (salt iv : List Nat) (ef : Bool) (st st2 : Store)
    (h : registerBiometrics pw i d c salt iv ef st = .ok st2) :
    st2 (passKey i) = some (.str pw) ∨
      ∃ hx s2 i2, st2 (passKey i) = some (.env (encryptPayload pw hx s2 i2)) := by
  cases c with
  | none => simp [registerBiometrics] at h
  | some cred =>
    cases hp : cred.prf with
    | some pk =>
      cases ef with
      | true => simp [registerBiometrics, hp] at h
      | false =>
        simp only [registerBiometrics, hp] at h
        rw [if_neg (by decide : ¬ (false = true))] at h
        right
        refine ⟨hexOfBytes pk, salt, iv, ?_⟩
        rw [storeCredId_pass i d cred _ st2 h i,
          setItem_other _ _ _ _ (passKey_ne_secureKey i), setItem_self]
    | none =>
      simp only [registerBiometrics, hp] at h
      left
      rw [storeCredId_pass i d cred _ st2 h i,
        removeItem_other _ _ _ (passKey_ne_secureKey i), setItem_self]

/-- A successful registration for scope `i` does not change the
payload key of a scope `A` whose payload key differs from both of
both storage keys of `i`. -/
theorem register_pass_frame (pw : String) (i d : Option String)
    (c : Option Credential) (salt iv : List Nat) (ef : Bool) (st st2 : Store)
    (h : registerBiometrics pw i d c salt iv ef st = .ok st2)
    (A : Option String)
    (h1 : passKey A ≠ passKey i) (h2 : passKey A ≠ secureKey i) :
    st2 (passKey A) = st (passKey A) := by
  cases c with
  | none => simp [registerBiometrics] at h
  | some cred =>
    cases hp : cred.prf with
    | some pk =>
      cases ef with
      | true => simp [registerBiometrics, hp] at h
      | false =>
        simp only [registerBiometrics, hp] at h
        rw [if_neg (by decide : ¬ (false = true))] at h
        rw [storeCredId_pass i d cred _ st2 h A,
          setItem_other _ _ _ _ h2, setItem_other _ _ _ _ h1]
    | none =>
      simp only [registerBiometrics, hp] at h
      rw [storeCredId_pass i d cred _ st2 h A,
        removeItem_other _ _ _ h2, setItem_other _ _ _ _ h1]

/-- Whatever a successful verify returns is either the stored scope
value itself (Legacy path) or a successful decryption of it (Secure
path). -/
theorem verify_ok_cases (A : Option String) (asn : Assertion)
    (salt iv : List Nat) (ef : Bool) (st st2 : Store) (v p : SVal)
    (hv : getTruthy st (passKey A) = some v)
    (h : verifyBiometrics A (some asn) salt iv ef st = .ok (p, st2)) :
    p = v ∨ ∃ pk s, asn.prf = some pk ∧
      decryptData v.toEncJson (hexOfBytes pk) = .ok s ∧ p = .str s := by
  simp only [verifyBiometrics, hv] at h
  cases hsec : isTrueFlag st (secureKey A) || isTrueFlag st (secureKey none) <;>
    rw [hsec] at h
  · cases hprf : asn.prf with
    | none =>
      simp [hprf] at h
      left
      exact h.1.symm
    | some pk =>
      cases ef <;> simp [hprf] at h <;> (left; exact h.1.symm)
  · cases hprf : asn.prf with
    | none => simp [hprf] at h
    | some pk =>
      cases hdec : decryptData v.toEncJson (hexOfBytes pk) with
      | error e => simp [hprf, hdec] at h
      | ok s =>
        simp [hprf, hdec] at h
        right
        exact ⟨pk, s, rfl, hdec, h.1.symm⟩

/-- C7 counterexample: the global scope (`scopeId = null`) and the
literal scope id `master-biometric-credential` are distinct scope ids
that share one storage key.  Registering `pwA` for the global scope
and then `pwB` for the literal scope, verifying the global scope
returns `pwB`. -/
theorem scope_isolation_cex :
    ((registerBiometrics "pwA" none none (some ⟨[1], none⟩) [] [] false
        emptyStore).bind fun s1 =>
      (registerBiometrics "pwB" (some "master-biometric-credential") none
        (some ⟨[2], none⟩) [] [] false s1).bind fun s2 =>
      (verifyBiometrics none (some ⟨none⟩) [] [] false s2).map Prod.fst) =
      .ok (.str "pwB") := by
  rfl

/-- C7 (amended): registering distinct passwords for distinct scopes
A and B and then verifying A never returns the password of B, provided
the password of A is non-empty (an empty stored password is falsy and
triggers the fallback to the global record) and the payload key of A
collides with neither storage key of B under the key mapping of the
code, which sends the null scope and the empty and the literal
`master-biometric-credential` item ids all to the same global key and
can also collide ids differing by a `_secure` suffix. -/
theorem scope_isolation (st0 : Store) (pwA pwB : String) (A B dA dB : Option String)
    (cA cB : Option Credential) (sA iA sB iB : List Nat) (eA eB : Bool)
    (st1 st2 : Store) (asn : Assertion) (sV iV : List Nat) (eV : Bool)
    (hpw : pwA ≠ pwB)
    (hpwA : pwA ≠ "")
    (hk1 : passKey A ≠ passKey B)
    (hk2 : passKey A ≠ secureKey B)
    (hA : registerBiometrics pwA A dA cA sA iA eA st0 = .ok st1)
    (hB : registerBiometrics pwB B dB cB sB iB eB st1 = .ok st2) :
    ∀ p st3, verifyBiometrics A (some asn) sV iV eV st2 = .ok (p, st3) →
      p ≠ .str pwB := by
  intro p st3 hV hcontra
  subst hcontra
  have hframe := register_pass_frame pwB B dB cB sB iB eB st1 st2 hB A hk1 hk2
  rcases register_pass_self pwA A dA cA sA iA eA st0 st1 hA with hstr | ⟨hx, s2, i2, henv⟩
  · have hrow : st2 (passKey A) = some (.str pwA) := by rw [hframe, hstr]
    have hv : getTruthy st2 (passKey A) = some (.str pwA) := by
      simp [getTruthy, hrow, SVal.truthy, hpwA]
    rcases verify_ok_cases A asn sV iV eV st2 st3 (.str pwA) (.str pwB) hv hV with
      h | ⟨pk, s, _, hdec, hps⟩
    · injection h with h2
      exact hpw h2.symm
    · simp [SVal.toEncJson, decryptData] at hdec
  · have hrow : st2 (passKey A) = some (.env (encryptPayload pwA hx s2 i2)) := by
      rw [hframe, henv]
    have hv : getTruthy st2 (passKey A) = some (.env (encryptPayload pwA hx s2 i2)) := by
      simp [getTruthy, hrow, SVal.truthy]
    rcases verify_ok_cases A asn sV iV eV st2 st3
        (.env (encryptPayload pwA hx s2 i2)) (.str pwB) hv hV with
      h | ⟨pk, s, _, hdec, hps⟩
    · exact absurd h (by simp)
    · have hs : s = pwA :=
        decrypt_payload_ok pwA hx s2 i2 (hexOfBytes pk) s hdec
      have hbs : pwB = s := by injection hps
      exact hpw ((hbs.trans hs).symm)

/-- C7 witness: the amended statement applied at concrete scopes,
passwords and stores (the verify call on the composed store returns
the password registered for scope sA, which differs from the one
registered for scope sB). -/
theorem scope_isolation_witness :
    (SVal.str "a" : SVal) ≠ SVal.str "b" :=
  scope_isolation emptyStore "a" "b" (some "sA") (some "sB") none none
    (some ⟨[1], none⟩) (some ⟨[2], none⟩) [] [] [] [] false false
    (okStore (registerBiometrics "a" (some "sA") none (some ⟨[1], none⟩)
      [] [] false emptyStore) emptyStore)
    (okStore (registerBiometrics "b" (some "sB") none (some ⟨[2], none⟩)
        [] [] false
        (okStore (registerBiometrics "a" (some "sA") none (some ⟨[1], none⟩)
          [] [] false emptyStore) emptyStore)) emptyStore)
    ⟨none⟩ [] [] false
    (by decide) (by decide) (by decide) (by decide) rfl rfl (.str "a")
    (okStore (registerBiometrics "b" (some "sB") none (some ⟨[2], none⟩)
        [] [] false
        (okStore (registerBiometrics "a" (some "sA") none (some ⟨[1], none⟩)
          [] [] false emptyStore) emptyStore)) emptyStore)
    rfl

/-! ### C8 — encrypted-backup discriminator -/

/-- C8: an import whose outer object carries `{encrypted: true, data}`
and no password fails with `PasswordRequired` whatever the envelope
holds (so before any decryption outcome can matter), that condition is
distinct from every decryption failure, and an unwrapped backup is
imported without a password. -/
theorem import_password_required (env : EncJson) (backup : RawBackup)
    (d : DB) (pb : String → Option RawBackup) :
    importData (.parsed true (some env) backup) none pb d =
        .error .passwordRequired ∧
      (∀ e, ImpErr.passwordRequired ≠ ImpErr.dec e) ∧
      (∀ items cats df,
        importData (.parsed false df ⟨some items, some cats⟩) none pb d =
          .ok (items.length,
            { vault_items := upsertAll VaultItem.id items d.vault_items
              categories := upsertAll CategoryItem.name cats d.categories })) := by
  refine ⟨rfl, fun e h => ImpErr.noConfusion h, fun items cats df => ?_⟩
  cases df <;> rfl

/-! ### C10 — import merges by key and never deletes -/

theorem upsertAll_lookup {α : Type} (key : α → String) (l : List α)
    (m : String → Option α) (k : String) :
    upsertAll key l m k = m k ∨
      ∃ x, x ∈ l ∧ key x = k ∧ upsertAll key l m k = some x := by
  induction l generalizing m with
  | nil => exact Or.inl rfl
  | cons a t ih =>
    have hstep : upsertAll key (a :: t) m = upsertAll key t (upsert key m a) := rfl
    rcases ih (upsert key m a) with h | ⟨x, hm, hk, he⟩
    · by_cases hka : k = key a
      · refine Or.inr ⟨a, List.mem_cons_self a t, hka.symm, ?_⟩
        rw [hstep, h]
        simp [upsert, hka]
      · refine Or.inl ?_
        rw [hstep, h]
        simp [upsert, hka]
    · exact Or.inr ⟨x, List.mem_cons_of_mem a hm, hk, by rw [hstep]; exact he⟩

theorem upsertAll_mem {α : Type} (key : α → String) (l : List α)
    (m : String → Option α) (x : α) (hx : x ∈ l) :
    ∃ y, y ∈ l ∧ key y = key x ∧ upsertAll key l m (key x) = some y := by
  induction l generalizing m with
  | nil => cases hx
  | cons a t ih =>
    have hstep : upsertAll key (a :: t) m = upsertAll key t (upsert key m a) := rfl
    rcases List.mem_cons.mp hx with rfl | hmem
    · rcases upsertAll_lookup key t (upsert key m x) (key x) with h | ⟨y, hm, hk, he⟩
      · refine ⟨x, List.mem_cons_self _ _, rfl, ?_⟩
        rw [hstep, h]
        simp [upsert]
      · exact ⟨y, List.mem_cons_of_mem _ hm, hk, by rw [hstep]; exact he⟩
    · rcases ih (upsert key m a) hmem with ⟨y, hm, hk, he⟩
      exact ⟨y, List.mem_cons_of_mem _ hm, hk, by rw [hstep]; exact he⟩

theorem upsertAll_not_deleted {α : Type} (key : α → String) (l : List α)
    (m : String → Option α) (k : String) (v : α) (h : m k = some v) :
    ∃ w, upsertAll key l m k = some w := by
  rcases upsertAll_lookup key l m k with h2 | ⟨x, _, _, he⟩
  · exact ⟨v, h2.trans h⟩
  · exact ⟨x, he⟩

/-- The frame/upsert behaviour of the import transaction itself. -/
theorem importBackup_ok (rb : RawBackup) (d : DB) (n : Nat) (d2 : DB)
    (h : importBackup rb d = .ok (n, d2)) :
    ∃ items cats, rb.vault_items = some items ∧ rb.categories = some cats ∧
      d2.vault_items = upsertAll VaultItem.id items d.vault_items ∧
      d2.categories = upsertAll CategoryItem.name cats d.categories := by
  cases hvi : rb.vault_items with
  | none => simp [importBackup, hvi] at h
  | some items =>
    cases hc : rb.categories with
    | none => simp [importBackup, hvi, hc] at h
    | some cats =>
      simp only [importBackup, hvi, hc] at h
      injection h with h
      injection h with h1 h2
      exact ⟨items, cats, rfl, rfl, by rw [← h2], by rw [← h2]⟩

/-- C10: a successful import upserts each backup row by its key and
leaves every other row untouched: any changed vault item or category
key carries a backup row, the key of every backup row is present afterwards
(holding a backup row with that key), and no pre-existing row is
deleted. -/
theorem import_merges_not_replaces (inp : ImportJson) (pw : Option String)
    (pb : String → Option RawBackup) (d : DB) (n : Nat) (d2 : DB)
    (h : importData inp pw pb d = .ok (n, d2)) :
    ∃ items : List VaultItem, ∃ cats : List CategoryItem,
      (∀ k, d2.vault_items k = d.vault_items k ∨
        ∃ it, it ∈ items ∧ it.id = k ∧ d2.vault_items k = some it) ∧
      (∀ it : VaultItem, it ∈ items → ∃ it2 : VaultItem, it2 ∈ items ∧ it2.id = it.id ∧
        d2.vault_items it.id = some it2) ∧
      (∀ k v, d.vault_items k = some v → ∃ w, d2.vault_items k = some w) ∧
      (∀ k, d2.categories k = d.categories k ∨
        ∃ c, c ∈ cats ∧ c.name = k ∧ d2.categories k = some c) ∧
      (∀ c : CategoryItem, c ∈ cats → ∃ c2 : CategoryItem, c2 ∈ cats ∧ c2.name = c.name ∧
        d2.categories c.name = some c2) ∧
      (∀ k v, d.categories k = some v → ∃ w, d2.categories k = some w) := by
  have main : ∀ rb : RawBackup, importBackup rb d = .ok (n, d2) →
      ∃ items : List VaultItem, ∃ cats : List CategoryItem,
        (∀ k, d2.vault_items k = d.vault_items k ∨
          ∃ it, it ∈ items ∧ it.id = k ∧ d2.vault_items k = some it) ∧
        (∀ it : VaultItem, it ∈ items → ∃ it2 : VaultItem, it2 ∈ items ∧ it2.id = it.id ∧
          d2.vault_items it.id = some it2) ∧
        (∀ k v, d.vault_items k = some v → ∃ w, d2.vault_items k = some w) ∧
        (∀ k, d2.categories k = d.categories k ∨
          ∃ c, c ∈ cats ∧ c.name = k ∧ d2.categories k = some c) ∧
        (∀ c : CategoryItem, c ∈ cats → ∃ c2 : CategoryItem, c2 ∈ cats ∧ c2.name = c.name ∧
          d2.categories c.name = some c2) ∧
        (∀ k v, d.categories k = some v → ∃ w, d2.categories k = some w) := by
    intro rb hrb
    rcases importBackup_ok rb d n d2 hrb with ⟨items, cats, _, _, hvi, hcat⟩
    refine ⟨items, cats, ?_, ?_, ?_, ?_, ?_, ?_⟩
    · intro k
      rw [hvi]
      exact upsertAll_lookup VaultItem.id items d.vault_items k
    · intro it hit
      rw [hvi]
      exact upsertAll_mem VaultItem.id items d.vault_items it hit
    · intro k v hk
      rw [hvi]
      exact upsertAll_not_deleted VaultItem.id items d.vault_items k v hk
    · intro k
      rw [hcat]
      exact upsertAll_lookup CategoryItem.name cats d.categories k
    · intro c hc
      rw [hcat]
      exact upsertAll_mem CategoryItem.name cats d.categories c hc
    · intro k v hk
      rw [hcat]
      exact upsertAll_not_deleted CategoryItem.name cats d.categories k v hk
  cases inp with
  | malformed s => exact absurd h (by simp [importData])
  | parsed enc df backup =>
    cases enc with
    | false => exact main backup h
    | true =>
      cases df with
      | none => exact main backup h
      | some env =>
        simp only [importData] at h
        split at h
        · cases h
        · split at h
          · cases h
          · split at h
            · cases h
            · exact main _ h

/-- C10 witness: the theorem applied to a concrete one-item import
into the empty database. -/
theorem import_merges_not_replaces_witness :
    ∃ items : List VaultItem, ∃ cats : List CategoryItem,
      (∀ k, (okDB (importData (.parsed false none
            ⟨some [⟨"i1", "t", "c", "e", "d", false⟩], some []⟩) none
            (fun _ => none) emptyDB) emptyDB).vault_items k =
          emptyDB.vault_items k ∨
        ∃ it, it ∈ items ∧ it.id = k ∧
          (okDB (importData (.parsed false none
            ⟨some [⟨"i1", "t", "c", "e", "d", false⟩], some []⟩) none
            (fun _ => none) emptyDB) emptyDB).vault_items k = some it) ∧
      (∀ it : VaultItem, it ∈ items → ∃ it2 : VaultItem, it2 ∈ items ∧ it2.id = it.id ∧
        (okDB (importData (.parsed false none
          ⟨some [⟨"i1", "t", "c", "e", "d", false⟩], some []⟩) none
          (fun _ => none) emptyDB) emptyDB).vault_items it.id = some it2) ∧
      (∀ k v, emptyDB.vault_items k = some v →
        ∃ w, (okDB (importData (.parsed false none
          ⟨some [⟨"i1", "t", "c", "e", "d", false⟩], some []⟩) none
          (fun _ => none) emptyDB) emptyDB).vault_items k = some w) ∧
      (∀ k, (okDB (importData (.parsed false none
            ⟨some [⟨"i1", "t", "c", "e", "d", false⟩], some []⟩) none
            (fun _ => none) emptyDB) emptyDB).categories k =
          emptyDB.categories k ∨
        ∃ c, c ∈ cats ∧ c.name = k ∧
          (okDB (importData (.parsed false none
            ⟨some [⟨"i1", "t", "c", "e", "d", false⟩], some []⟩) none
            (fun _ => none) emptyDB) emptyDB).categories k = some c) ∧
      (∀ c : CategoryItem, c ∈ cats → ∃ c2 : CategoryItem, c2 ∈ cats ∧ c2.name = c.name ∧
        (okDB (importData (.parsed false none
          ⟨some [⟨"i1", "t", "c", "e", "d", false⟩], some []⟩) none
          (fun _ => none) emptyDB) emptyDB).categories c.name = some c2) ∧
      (∀ k v, emptyDB.categories k = some v →
        ∃ w, (okDB (importData (.parsed false none
          ⟨some [⟨"i1", "t", "c", "e", "d", false⟩], some []⟩) none
          (fun _ => none) emptyDB) emptyDB).categories k = some w) :=
  import_merges_not_replaces
    (.parsed false none ⟨some [⟨"i1", "t", "c", "e", "d", false⟩], some []⟩)
    none (fun _ => none) emptyDB 1
    (okDB (importData (.parsed false none
      ⟨some [⟨"i1", "t", "c", "e", "d", false⟩], some []⟩) none
      (fun _ => none) emptyDB) emptyDB) rfl

end LensKey
